import Mathlib

/-!
Verification of the console interception/retention layer
(`src/bin/rd/ConsoleProxy/index.js`, `src/bin/rd/ConsoleMethods/index.js`,
and the minimal unnamed variant).  The JavaScript classes are shallowly
embedded: timestamps are integer milliseconds, the four monitored console
channels are a fixed enumeration, the host's original channel
implementations are opaque callables modelled by an effect trace plus a
may-throw predicate, and JavaScript exceptions are explicit `threw` flags.
-/

namespace Devtools

/-- The four monitored console channels (the hard-coded key set of
`_originalConsole` in both classes). -/
inductive Method
  | log
  | info
  | warn
  | error
deriving DecidableEq, Repr

/-- Channel name as the string used by the source (template literals,
object keys). -/
def Method.name : Method → String
  | .log => "log"
  | .info => "info"
  | .warn => "warn"
  | .error => "error"

/-- A JavaScript argument value as far as the logger inspects it:
`#getSource` only distinguishes strings (inspected) from everything else
(opaque).  Non-string payloads are represented by `num`. -/
inductive Arg
  | str (s : String)
  | num (n : Int)
deriving DecidableEq, Repr

/-- The value stored in a log entry's `source` field across the variants:
a plain string (ConsoleProxy argument-based attribution), a parsed stack
frame record (ConsoleMethods), JavaScript `undefined`, or the empty object
`\x7b\x7d` that ConsoleMethods returns when the frame regex does not match. -/
inductive SourceVal
  | str (s : String)
  | frame (method file line : String)
  | jsUndefined
  | emptyObj
deriving DecidableEq, Repr

/-- A captured log record: `\x7bmethod, source, timestamp, data\x7d` as pushed by
`#captureLog`.  `timestamp` is the capture time in milliseconds. -/
structure LogEntry where
  method : Method
  source : SourceVal
  timestamp : Int
  data : List Arg
deriving DecidableEq, Repr

/-- The options object: per-channel capture flags, rotation size,
expiry in days, debug flag. -/
structure Options where
  log : Bool
  info : Bool
  warn : Bool
  error : Bool
  maxLogSize : Nat
  logExpiryDays : Nat
  debug : Bool
deriving DecidableEq, Repr

/-- `ConsoleProxy.defaultOptions()`. -/
def defaultOptions : Options :=
  { log := true, info := true, warn := true, error := true
    maxLogSize := 100, logExpiryDays := 7, debug := false }

/-- Look up the per-channel capture flag `this._options[method]`. -/
def Options.flag (o : Options) : Method → Bool
  | .log => o.log
  | .info => o.info
  | .warn => o.warn
  | .error => o.error

/-- `ConsoleProxy.#shouldLog(method, args)`: returns `this._options[method]`
(the `args` parameter is unused in the source). -/
def shouldLog (o : Options) (m : Method) (_args : List Arg) : Bool :=
  o.flag m

/-- Milliseconds per day, the unit behind `setDate(getDate() - days)` and
the `ageInDays` computation. -/
def msPerDay : Int := 86400000

/-- `ConsoleProxy.#rotateLogs()`: drop entries with
`timestamp < now - logExpiryDays` (the filter keeps
`new Date(log.timestamp) >= expiryDate`), then if more than `maxLogSize`
entries remain, splice off the oldest down to exactly `maxLogSize`. -/
def rotateLogs (o : Options) (now : Int) (logs : List LogEntry) : List LogEntry :=
  let kept := logs.filter fun e => decide (now - (o.logExpiryDays : Int) * msPerDay ≤ e.timestamp)
  if kept.length > o.maxLogSize then kept.drop (kept.length - o.maxLogSize) else kept

/-- Remove the first occurrence of character `c` (JavaScript
`String.prototype.replace` with a plain-string pattern replaces only the
first occurrence). -/
def removeFirstChar (c : Char) : List Char → List Char
  | [] => []
  | x :: xs => if x = c then xs else x :: removeFirstChar c xs

/-- JavaScript `String.prototype.split` with a one-character separator:
splits at every occurrence, keeping empty pieces, and maps the empty
string to `[""]`. -/
def jsSplitChar (sep : Char) : List Char → List (List Char)
  | [] => [[]]
  | c :: cs =>
    let rest := jsSplitChar sep cs
    if c = sep then [] :: rest
    else
      match rest with
      | t :: ts => (c :: t) :: ts
      | [] => [[c]]

/-- `token.replace("[", "").replace("]", "")` on single-character
patterns: remove the first `[` and then the first `]`. -/
def stripFirstBrackets (t : List Char) : List Char :=
  removeFirstChar ']' (removeFirstChar '[' t)

/-- `ConsoleProxy.#getSource(args)`: if the first argument is a string and
it is the only argument, the source is `"user"`; if there are further
arguments, take the third space-delimited token of the first argument,
strip the first `[` and `]`, default to the empty string when the token is
missing or empty (the `|| ""` fallback), and keep the text before the
first `:`; if the first argument is not a string (or absent), source is
`undefined`. -/
def getSource (args : List Arg) : SourceVal :=
  match args with
  | (Arg.str s) :: rest =>
    if rest.isEmpty then
      .str "user"
    else
      let fullLine := (((jsSplitChar ' ' s.toList).get? 2).map stripFirstBrackets).getD []
      .str (String.mk ((jsSplitChar ':' fullLine).headD []))
  | _ => .jsUndefined

/-- Whether a channel currently holds the controller's wrapper or the
original host implementation.  The wrapper closures are the fixed values
`this.#privateMethods[key]`, bound once and always forwarding to the
`_originalConsole` snapshot, so a slot is exactly one of these two. -/
inductive Slot
  | original
  | wrapped
deriving DecidableEq, Repr

/-- The four console slots (`console.log`, `console.info`, `console.warn`,
`console.error`). -/
structure ConsoleSlots where
  log : Slot
  info : Slot
  warn : Slot
  error : Slot
deriving DecidableEq, Repr

/-- All four slots set to the same value (the `forEach` assignment loops). -/
def allSlots (s : Slot) : ConsoleSlots :=
  { log := s, info := s, warn := s, error := s }

/-- Slot lookup by channel. -/
def ConsoleSlots.get (c : ConsoleSlots) : Method → Slot
  | .log => c.log
  | .info => c.info
  | .warn => c.warn
  | .error => c.error

/-- The mutable state of a `ConsoleProxy` instance together with the
console slots it manages: `_logs`, `_options`, `_enabled`, and which
implementation each channel currently resolves to. -/
structure ProxyState where
  logs : List LogEntry
  options : Options
  enabled : Bool
  console : ConsoleSlots
deriving DecidableEq, Repr

/-- The host's original channel implementations, reduced to the one bit the
claims need: whether invoking the original implementation of a channel
throws (`true`) or succeeds (`false`).  The spec treats them as opaque
callables whose failures propagate. -/
abbrev Host := Method → Bool

/-- One invocation of an original host implementation, recorded as the
channel and the exact argument list passed. -/
abbrev Effect := Method × List Arg

/-- Result of running a (possibly wrapped) channel call: the state after,
the ordered original-implementation invocations performed, and whether a
JavaScript exception propagated to the caller. -/
structure CallResult where
  state : ProxyState
  effects : List Effect
  threw : Bool
deriving DecidableEq, Repr

/-- The argument list of the debug print
`this.original("log", ` ++ "`Debug: Capturing log: ...`" ++ `, args)`
(the payload array is flattened into the trace; its exact shape is not
observed by any property). -/
def debugCaptureArgs (m : Method) (args : List Arg) : List Arg :=
  Arg.str ("Debug: Capturing log: " ++ m.name) :: args

/-- The rotate/attribute/store part of `ConsoleProxy.#captureLog` (the body
after the debug print): run `#rotateLogs`, compute the source, build the
entry with the current timestamp, and push it iff `#shouldLog` is true. -/
def captureCore (st : ProxyState) (m : Method) (args : List Arg) (now : Int) : ProxyState :=
  let logs1 := rotateLogs st.options now st.logs
  let source := getSource args
  let entry : LogEntry := { method := m, source := source, timestamp := now, data := args }
  let logs2 := if shouldLog st.options m args then logs1 ++ [entry] else logs1
  { st with logs := logs2 }

/-- `ConsoleProxy.#captureLog(method, ...args)`: when `debug` is set it
first calls `this.original("log", ...)`; if that host call throws, the
exception propagates before any rotation or storage happens.  Otherwise
the capture core runs.  There is no try/catch in this method. -/
def captureLog (host : Host) (st : ProxyState) (m : Method) (args : List Arg)
    (now : Int) : CallResult :=
  if st.options.debug then
    if host .log then
      { state := st, effects := [(.log, debugCaptureArgs m args)], threw := true }
    else
      { state := captureCore st m args now
        effects := [(.log, debugCaptureArgs m args)], threw := false }
  else
    { state := captureCore st m args now, effects := [], threw := false }

/-- A wrapper body `#log`/`#info`/`#warn`/`#error`: run `#captureLog`, then
call the `_originalConsole` snapshot with the original arguments.  There is
no try/catch: an exception from capture propagates and the forward call
never happens; an exception from the original implementation propagates to
the caller (ForwardingFailure). -/
def invokeWrapped (host : Host) (st : ProxyState) (m : Method) (args : List Arg)
    (now : Int) : CallResult :=
  let c := captureLog host st m args now
  if c.threw then c
  else { state := c.state, effects := c.effects ++ [(m, args)], threw := host m }

/-- Calling `console[m](...args)`: dispatch on what the slot currently
holds — the original implementation directly, or the wrapper. -/
def invokeChannel (host : Host) (st : ProxyState) (m : Method) (args : List Arg)
    (now : Int) : CallResult :=
  match st.console.get m with
  | .original => { state := st, effects := [(m, args)], threw := host m }
  | .wrapped => invokeWrapped host st m args now

/-- `ConsoleProxy.toggleProxy(enable)`: set `_enabled`, then for every key
of `_originalConsole` assign `console[key]` to the wrapper when enabling
and to the original snapshot when disabling — the per-channel option flags
are not consulted here. -/
def toggleProxy (st : ProxyState) (enable : Bool) : ProxyState :=
  { st with enabled := enable
            console := if enable then allSlots .wrapped else allSlots .original }

/-- `ConsoleProxy.disableProxy()`. -/
def disableProxy (st : ProxyState) : ProxyState :=
  toggleProxy st false

/-- The flat ordered view of the Retention Store (`this._logs`, what the
spec calls `list()`; `CustomConsoleLogger.getLogs` returns it directly). -/
def getLogs (st : ProxyState) : List LogEntry :=
  st.logs

/-! ## The `CustomConsoleLogger` variant (`ConsoleMethods/index.js`) -/

/-- Install the wrapper on each channel whose option flag is true, leaving
the other slots untouched (the guarded assignments in
`toggleLogging(true)`). -/
def installFlagged (o : Options) (c : ConsoleSlots) : ConsoleSlots :=
  { log := if o.log then .wrapped else c.log
    info := if o.info then .wrapped else c.info
    warn := if o.warn then .wrapped else c.warn
    error := if o.error then .wrapped else c.error }

/-- `CustomConsoleLogger.toggleLogging(enable)`: when enabling from a
disabled state, install wrappers only on flagged channels and set
`_enabled`; when disabling from an enabled state, restore all four
channels to the original snapshots; otherwise do nothing. -/
def toggleLogging (st : ProxyState) (enable : Bool) : ProxyState :=
  if enable && !st.enabled then
    { st with console := installFlagged st.options st.console, enabled := true }
  else if !enable && st.enabled then
    { st with console := allSlots .original, enabled := false }
  else
    st

/-- `CustomConsoleLogger.#rotateLogs()`: keep entries whose
`ageInDays = (now - timestamp) / msPerDay` is strictly less than
`logExpiryDays` (equivalently `now - timestamp < logExpiryDays * msPerDay`),
then trim to `maxLogSize` newest entries. -/
def methodsRotateLogs (o : Options) (now : Int) (logs : List LogEntry) : List LogEntry :=
  let kept := logs.filter fun e => decide (now - e.timestamp < (o.logExpiryDays : Int) * msPerDay)
  if kept.length > o.maxLogSize then kept.drop (kept.length - o.maxLogSize) else kept

/-- Parse one textual stack line against the frame pattern
`at <method> (<file>:<line>:<col>)` used by `CustomConsoleLogger.#getSource`
(the regex literal is mangled in the checked-in source; the spec documents
this shape).  Returns the method, file and line captures, or `none` when
the line does not match. -/
def parseFrame (line : String) : Option (String × String × String) :=
  match (jsSplitChar ' ' line.toList).filter (fun t => !t.isEmpty) with
  | [atTok, methodTok, parenTok] =>
    if atTok = ['a', 't'] then
      let inner1 := match parenTok with
        | '(' :: r => r
        | t => t
      let inner := if inner1.getLast? = some ')' then inner1.dropLast else inner1
      match jsSplitChar ':' inner with
      | [file, lineNo, col] =>
        if !lineNo.isEmpty && lineNo.all Char.isDigit && !col.isEmpty && col.all Char.isDigit then
          some (String.mk methodTok, String.mk file, String.mk lineNo)
        else none
      | _ => none
    else none
  | _ => none

/-- `CustomConsoleLogger.#getSource()`: take line 3 of the captured stack
text (JavaScript index `[3]`; a missing line coerces to the string
`"undefined"` inside `exec`), run the frame pattern, and return the frame
record on a match or the empty object on no match.  Note the no-match
result is `\x7b\x7d`, not an "unknown" sentinel. -/
def getSourceStack (stack : String) : SourceVal :=
  let line := String.mk (((jsSplitChar '\n' stack.toList).get? 3).getD "undefined".toList)
  match parseFrame line with
  | some (m, f, l) => .frame m f l
  | none => .emptyObj

/-- `CustomConsoleLogger.#shouldLog`: the source returns `true`
unconditionally (a placeholder). -/
def methodsShouldLog (_m : Method) (_args : List Arg) (_s : SourceVal) : Bool :=
  true

/-- `CustomConsoleLogger.#captureLog(method, ...args)`: rotate, resolve the
source from the stack snapshot, and (since `#shouldLog` is `true`) push the
entry. -/
def methodsCaptureLog (st : ProxyState) (m : Method) (args : List Arg) (now : Int)
    (stack : String) : ProxyState :=
  let logs1 := methodsRotateLogs st.options now st.logs
  let source := getSourceStack stack
  let logs2 := if methodsShouldLog m args source then
      logs1 ++ [{ method := m, source := source, timestamp := now, data := args }]
    else logs1
  { st with logs := logs2 }

/-! ## Call sequences -/

/-- The entry `#captureLog` builds for a call `(method, args, time)` in the
ConsoleProxy variant. -/
def entryOf : Method × List Arg × Int → LogEntry
  | (m, args, t) => { method := m, source := getSource args, timestamp := t, data := args }

/-- Run a sequence of channel calls `(method, args, time)` through
`invokeChannel`, threading the state. -/
def runCalls (host : Host) (st : ProxyState) : List (Method × List Arg × Int) → ProxyState
  | [] => st
  | (m, args, t) :: rest => runCalls host (invokeChannel host st m args t).state rest

/-- A host none of whose original implementations throws. -/
def host0 : Host := fun _ => false

/-! ## Helper lemmas -/

/-- Entries ordered by nondecreasing timestamp (the store is appended in
call order, so insertion order is temporal order). -/
def timeSorted (l : List LogEntry) : Prop :=
  l.Pairwise fun a b => a.timestamp ≤ b.timestamp

lemma suffix_append_both {α : Type} {s E : List α} (h : s <:+ E) (t : List α) :
    s ++ t <:+ E ++ t := by
  obtain ⟨w, rfl⟩ := h
  exact ⟨w, (List.append_assoc w s t).symm⟩

lemma filter_suffix_of_timeSorted (c : Int) (l : List LogEntry) (h : timeSorted l) :
    (l.filter fun e => decide (c ≤ e.timestamp)) <:+ l := by
  induction l with
  | nil => simp
  | cons a l ih =>
    rcases List.pairwise_cons.mp h with ⟨ha, hl⟩
    by_cases hc : c ≤ a.timestamp
    · have heq : (a :: l).filter (fun e => decide (c ≤ e.timestamp)) = a :: l := by
        apply List.filter_eq_self.mpr
        intro b hb
        rcases List.mem_cons.mp hb with rfl | hb
        · exact decide_eq_true hc
        · exact decide_eq_true (le_trans hc (ha b hb))
      rw [heq]
    · have heq : (a :: l).filter (fun e => decide (c ≤ e.timestamp))
          = l.filter (fun e => decide (c ≤ e.timestamp)) := by
        simp [List.filter_cons, hc]
      rw [heq]
      exact (ih hl).trans (List.suffix_cons a l)

lemma rotateLogs_suffix (o : Options) (now : Int) (l : List LogEntry) (h : timeSorted l) :
    rotateLogs o now l <:+ l := by
  unfold rotateLogs
  have h1 := filter_suffix_of_timeSorted (now - (o.logExpiryDays : Int) * msPerDay) l h
  dsimp only
  split
  · exact (List.drop_suffix _ _).trans h1
  · exact h1

lemma rotateLogs_length_le (o : Options) (now : Int) (l : List LogEntry) :
    (rotateLogs o now l).length ≤ o.maxLogSize := by
  unfold rotateLogs
  dsimp only
  split <;> rename_i hlen
  · simp only [List.length_drop]
    omega
  · omega

lemma mem_rotateLogs_le (o : Options) (now : Int) (l : List LogEntry) (e : LogEntry)
    (he : e ∈ rotateLogs o now l) :
    now - (o.logExpiryDays : Int) * msPerDay ≤ e.timestamp := by
  unfold rotateLogs at he
  dsimp only at he
  have hmem : e ∈ l.filter fun e => decide (now - (o.logExpiryDays : Int) * msPerDay ≤ e.timestamp) := by
    split at he
    · exact List.mem_of_mem_drop he
    · exact he
  exact of_decide_eq_true (List.mem_filter.mp hmem).2

lemma captureCore_logs (st : ProxyState) (m : Method) (args : List Arg) (now : Int) :
    (captureCore st m args now).logs =
      if st.options.flag m then
        rotateLogs st.options now st.logs
          ++ [{ method := m, source := getSource args, timestamp := now, data := args }]
      else rotateLogs st.options now st.logs := by
  simp only [captureCore, shouldLog]

lemma invokeChannel_wrapped_eq (host : Host) (st : ProxyState) (m : Method)
    (args : List Arg) (now : Int)
    (hd : st.options.debug = false) (hw : st.console.get m = .wrapped) :
    invokeChannel host st m args now =
      { state := captureCore st m args now, effects := [(m, args)], threw := host m } := by
  unfold invokeChannel
  rw [hw]
  unfold invokeWrapped captureLog
  simp [hd]

/-- Time of a call triple. -/
def callTime : Method × List Arg × Int → Int
  | (_, _, t) => t

lemma runCalls_logs_suffix (host : Host) :
    ∀ (calls : List (Method × List Arg × Int)) (st : ProxyState) (E : List LogEntry),
    st.options.debug = false →
    st.console = allSlots .wrapped →
    (∀ m, st.options.flag m = true) →
    st.logs <:+ E →
    timeSorted st.logs →
    (∀ e ∈ st.logs, ∀ c ∈ calls, e.timestamp ≤ callTime c) →
    calls.Pairwise (fun c d => callTime c ≤ callTime d) →
    (runCalls host st calls).logs <:+ E ++ calls.map entryOf := by
  intro calls
  induction calls with
  | nil =>
    intro st E _ _ _ hE _ _ _
    simpa using hE
  | cons c rest ih =>
    intro st E hd hw hf hE hs hb hp
    obtain ⟨m, args, t⟩ := c
    have hwm : st.console.get m = .wrapped := by rw [hw]; cases m <;> rfl
    have hstep := invokeChannel_wrapped_eq host st m args t hd hwm
    have hrun : runCalls host st ((m, args, t) :: rest)
        = runCalls host (captureCore st m args t) rest := by
      simp [runCalls, hstep]
    rw [hrun]
    have hlogs : (captureCore st m args t).logs
        = rotateLogs st.options t st.logs ++ [entryOf (m, args, t)] := by
      rw [captureCore_logs, hf m]
      rfl
    have hRsuf : rotateLogs st.options t st.logs <:+ st.logs := rotateLogs_suffix _ _ _ hs
    have hRsub : List.Sublist (rotateLogs st.options t st.logs) st.logs := hRsuf.sublist
    have happ : E ++ ((m, args, t) :: rest).map entryOf
        = (E ++ [entryOf (m, args, t)]) ++ rest.map entryOf := by
      simp
    rw [happ]
    rcases List.pairwise_cons.mp hp with ⟨hpt, hpr⟩
    apply ih (captureCore st m args t) (E ++ [entryOf (m, args, t)]) hd hw hf
    · rw [hlogs]
      exact suffix_append_both (hRsuf.trans hE) _
    · rw [hlogs]
      unfold timeSorted
      rw [List.pairwise_append]
      refine ⟨hs.sublist hRsub, List.pairwise_singleton _ _, ?_⟩
      intro x hx y hy
      rw [List.mem_singleton.mp hy]
      exact hb x (hRsub.subset hx) (m, args, t) (List.mem_cons_self _ _)
    · rw [hlogs]
      intro e he c' hc'
      rcases List.mem_append.mp he with he | he
      · exact hb e (hRsub.subset he) c' (List.mem_cons_of_mem _ hc')
      · rw [List.mem_singleton.mp he]
        exact hpt c' hc'
    · exact hpr

/-! ## Concrete scenario states -/

/-- The options of the C1 scenario: all four capture flags on,
`maxLogSize = 2`, `logExpiryDays = 7`, debug off. -/
def c1Options : Options :=
  { log := true, info := true, warn := true, error := true
    maxLogSize := 2, logExpiryDays := 7, debug := false }

/-- A freshly enabled controller with the C1 options and an empty store
(all four channels wrapped, as `toggleProxy(true)` leaves them). -/
def c1State0 : ProxyState :=
  { logs := [], options := c1Options, enabled := true, console := allSlots .wrapped }

/-- Three calls to the enabled "log" channel with payloads A, B, C. -/
def c1Run : ProxyState :=
  runCalls host0 c1State0 [(.log, [.str "A"], 0), (.log, [.str "B"], 0), (.log, [.str "C"], 0)]

/-- The same with a fourth call D appended. -/
def c1Run4 : ProxyState :=
  runCalls host0 c1State0
    [(.log, [.str "A"], 0), (.log, [.str "B"], 0), (.log, [.str "C"], 0), (.log, [.str "D"], 0)]

/-- An entry whose age at time 0 is exactly `logExpiryDays = 7` days. -/
def c2OldEntry : LogEntry :=
  { method := .log, source := .str "user", timestamp := -604800000, data := [.str "A0"] }

/-- An enabled controller with the default options (7-day expiry) whose
store holds one entry aged exactly seven days. -/
def c2BoundaryState : ProxyState :=
  { logs := [c2OldEntry], options := defaultOptions, enabled := true
    console := allSlots .wrapped }

/-- An enabled controller constructed with `logExpiryDays = 0` and an
empty store. -/
def c2ZeroState : ProxyState :=
  { logs := []
    options := { log := true, info := true, warn := true, error := true
                 maxLogSize := 100, logExpiryDays := 0, debug := false }
    enabled := true, console := allSlots .wrapped }

/-- The entry the `c2ZeroState` "warn" call with payload X stores. -/
def c2XEntry : LogEntry :=
  { method := .warn, source := .str "user", timestamp := 0, data := [.str "X"] }

/-- The entry a later "log" call with payload Z stores at time 1. -/
def c2ZEntry : LogEntry :=
  { method := .log, source := .str "user", timestamp := 1, data := [.str "Z"] }

/-! ## Claims -/

/-- C1 (counterexample): the claimed rotation bound fails on the code.
With `maxLogSize = 2` and `logExpiryDays = 7`, three calls to the enabled
"log" channel with payloads A, B, C leave `list()` holding all three
entries — `#rotateLogs` runs before the push, so the store can hold
`maxEntries + 1` entries immediately after an append, and the claimed
result `[B, C]` does not occur (A is only evicted by the next append). -/
theorem rotation_bound_counterexample :
    (getLogs c1Run).map LogEntry.data = [[.str "A"], [.str "B"], [.str "C"]]
    ∧ ¬((getLogs c1Run).length ≤ c1Options.maxLogSize) := by
  constructor
  · decide
  · decide

/-- C1 (amended): after any append the count of retained entries is at
most `maxEntries + 1` (rotation trims to `maxEntries` strictly before the
new entry is pushed); in the `maxLogSize = 2, logExpiryDays = 7` scenario,
three calls A, B, C leave `list() = [A, B, C]`, and the oldest entry is
evicted only on the fourth append, which leaves `[B, C, D]`. -/
theorem rotation_bound_amended :
    (∀ (st : ProxyState) (m : Method) (args : List Arg) (now : Int),
      (getLogs (captureCore st m args now)).length ≤ st.options.maxLogSize + 1)
    ∧ (getLogs c1Run).map LogEntry.data = [[.str "A"], [.str "B"], [.str "C"]]
    ∧ (getLogs c1Run4).map LogEntry.data = [[.str "B"], [.str "C"], [.str "D"]] := by
  refine ⟨?_, by decide, by decide⟩
  intro st m args now
  show (captureCore st m args now).logs.length ≤ st.options.maxLogSize + 1
  rw [captureCore_logs]
  have hrot := rotateLogs_length_le st.options now st.logs
  split
  · rw [List.length_append]
    simpa using hrot
  · omega

/-- C2 (counterexample): the strict expiry bound fails on the code.
`#rotateLogs` keeps every entry with `timestamp >= now - logExpiryDays`
(non-strict), so immediately after an append the store can retain an entry
whose age is exactly `maxAgeDays`: with the default 7-day expiry, an entry
aged exactly seven days survives the rotation pass of a fresh append. -/
theorem expiry_bound_counterexample :
    c2OldEntry ∈ getLogs (captureCore c2BoundaryState .log [.str "B"] 0)
    ∧ ¬(0 - c2OldEntry.timestamp < (defaultOptions.logExpiryDays : Int) * msPerDay) := by
  constructor
  · decide
  · decide

/-- C2 (amended): after any append, every retained entry satisfies the
non-strict bound `entry.timestamp ≥ now − maxAgeDays` (age at most
`maxAgeDays`, evaluated at the append); `list()` never mutates the store,
so eviction happens only at append time; and at the `logExpiryDays = 0`
boundary, an entry captured at age 0 is present immediately after capture
and is removed by the next append once the clock has advanced. -/
theorem expiry_bound_amended :
    (∀ (st : ProxyState) (m : Method) (args : List Arg) (now : Int),
      ∀ e ∈ (captureCore st m args now).logs,
        now - (st.options.logExpiryDays : Int) * msPerDay ≤ e.timestamp)
    ∧ (∀ st : ProxyState, getLogs st = st.logs)
    ∧ getLogs (captureCore c2ZeroState .warn [.str "X"] 0) = [c2XEntry]
    ∧ getLogs (captureCore (captureCore c2ZeroState .warn [.str "X"] 0) .log [.str "Z"] 1)
        = [c2ZEntry] := by
  refine ⟨?_, fun _ => rfl, by decide, by decide⟩
  intro st m args now e he
  rw [captureCore_logs] at he
  have hnn : (0 : Int) ≤ (st.options.logExpiryDays : Int) * msPerDay := by
    have h1 : (0 : Int) ≤ (st.options.logExpiryDays : Int) := Int.natCast_nonneg _
    have h2 : (0 : Int) ≤ msPerDay := by norm_num [msPerDay]
    exact mul_nonneg h1 h2
  split at he
  · rcases List.mem_append.mp he with he | he
    · exact mem_rotateLogs_le _ _ _ _ he
    · rw [List.mem_singleton.mp he]
      show now - (st.options.logExpiryDays : Int) * msPerDay ≤ now
      omega
  · exact mem_rotateLogs_le _ _ _ _ he

/-- C2 (witness for the amended theorem): the bound instantiated at the
entry stored by the boundary scenario's own capture. -/
theorem expiry_bound_amended_witness :
    (0 : Int) - (c2ZeroState.options.logExpiryDays : Int) * msPerDay ≤ c2XEntry.timestamp :=
  expiry_bound_amended.1 c2ZeroState .warn [.str "X"] 0 c2XEntry (by decide)

/-- C3 (confirmed): while the controller is enabled (channel wrapped) and
the channel's policy flag is true, each call appends exactly one entry —
the store becomes the rotated old entries followed by the single new
entry — and, for any monotone-clock sequence of such calls starting from
an empty store, the retained entries are a suffix of the per-call entries
in call order. -/
theorem capture_completeness :
    (∀ (host : Host) (st : ProxyState) (m : Method) (args : List Arg) (now : Int),
      st.options.debug = false → st.console.get m = .wrapped → st.options.flag m = true →
      getLogs (invokeChannel host st m args now).state
        = rotateLogs st.options now st.logs
          ++ [{ method := m, source := getSource args, timestamp := now, data := args }])
    ∧ (∀ (host : Host) (calls : List (Method × List Arg × Int)) (st : ProxyState),
      st.options.debug = false → st.console = allSlots .wrapped →
      (∀ m, st.options.flag m = true) → st.logs = [] →
      calls.Pairwise (fun c d => callTime c ≤ callTime d) →
      getLogs (runCalls host st calls) <:+ calls.map entryOf) := by
  constructor
  · intro host st m args now hd hw hf
    rw [invokeChannel_wrapped_eq host st m args now hd hw]
    show (captureCore st m args now).logs = _
    rw [captureCore_logs, hf]
    rfl
  · intro host calls st hd hw hf hnil hp
    have h := runCalls_logs_suffix host calls st [] hd hw hf
      (by rw [hnil]) (by rw [hnil]; exact List.Pairwise.nil)
      (by rw [hnil]; intro e he; cases he) hp
    simpa using h

/-- C3 (witness): the single-call completeness equation instantiated on
the fresh C1 controller with payload A. -/
theorem capture_completeness_witness :
    getLogs (invokeChannel host0 c1State0 .log [.str "A"] 0).state
      = rotateLogs c1State0.options 0 c1State0.logs
        ++ [{ method := .log, source := getSource [.str "A"], timestamp := 0
              data := [.str "A"] }] :=
  capture_completeness.1 host0 c1State0 .log [.str "A"] 0 rfl rfl rfl

/-- Options with the "warn" policy flag off and the rest on. -/
def c4Options : Options :=
  { log := true, info := true, warn := false, error := true
    maxLogSize := 100, logExpiryDays := 7, debug := false }

/-- A disabled controller carrying `c4Options`, all channels at the
original implementations. -/
def c4State : ProxyState :=
  { logs := [], options := c4Options, enabled := false, console := allSlots .original }

/-- C4 (counterexample): the claimed routing invariant fails on
ConsoleProxy — `toggleProxy(true)` assigns the wrapper to every monitored
channel without consulting the per-channel policy flags, so a channel
whose flag is false (here "warn") is not left pointing at the original
implementation while globally enabled. -/
theorem routing_invariant_counterexample :
    (toggleProxy c4State true).enabled = true
    ∧ c4State.options.warn = false
    ∧ (toggleProxy c4State true).console.warn ≠ .original := by
  refine ⟨rfl, rfl, ?_⟩
  decide

/-- C4 (amended): in ConsoleProxy, `toggleProxy(false)` points every
monitored channel at the original implementation, and `toggleProxy(true)`
installs the wrapper on every monitored channel regardless of the policy
flags — a flag-false wrapped channel merely stores nothing when called
(only rotation runs).  The flag-gated install of the claim does hold in
the ConsoleMethods variant: `toggleLogging(true)` from a disabled state
leaves a flag-false channel's slot unchanged. -/
theorem routing_invariant_amended :
    (∀ st : ProxyState,
      (toggleProxy st false).console = allSlots .original
      ∧ (toggleProxy st false).enabled = false)
    ∧ (∀ st : ProxyState, (toggleProxy st true).console = allSlots .wrapped)
    ∧ (∀ (host : Host) (st : ProxyState) (m : Method) (args : List Arg) (now : Int),
        st.options.debug = false → st.options.flag m = false → st.console.get m = .wrapped →
        getLogs (invokeChannel host st m args now).state = rotateLogs st.options now st.logs)
    ∧ (∀ (st : ProxyState) (m : Method), st.enabled = false → st.options.flag m = false →
        (toggleLogging st true).console.get m = st.console.get m) := by
  refine ⟨fun st => ⟨rfl, rfl⟩, fun st => rfl, ?_, ?_⟩
  · intro host st m args now hd hf hw
    rw [invokeChannel_wrapped_eq host st m args now hd hw]
    show (captureCore st m args now).logs = _
    rw [captureCore_logs, hf]
    simp
  · intro st m hen hf
    unfold toggleLogging
    rw [hen]
    simp only [Bool.and_true, Bool.not_false]
    cases m <;> simp_all [installFlagged, ConsoleSlots.get, Options.flag]

/-- C4 (witness for the amended theorem): the ConsoleMethods flag-gated
install instantiated at the disabled `c4State` and its flag-false "warn"
channel. -/
theorem routing_invariant_amended_witness :
    (toggleLogging c4State true).console.get .warn = c4State.console.get .warn :=
  routing_invariant_amended.2.2.2 c4State .warn rfl rfl

/-- C5 (confirmed): toggling to either state twice yields the same state
as toggling once, both for ConsoleProxy's `toggleProxy` and for
ConsoleMethods' `toggleLogging`; and after a double `toggle(true)` no
double wrapping occurs — a call to a flagged channel is still forwarded
exactly once (a single original-implementation invocation with the
original arguments) and captured exactly once (a single appended entry).
The wrapper slots are the fixed `#privateMethods` closures bound to the
construction-time `_originalConsole` snapshot, so re-installation cannot
nest wrappers. -/
theorem toggle_idempotence :
    (∀ st : ProxyState, toggleProxy (toggleProxy st false) false = toggleProxy st false)
    ∧ (∀ st : ProxyState, toggleProxy (toggleProxy st true) true = toggleProxy st true)
    ∧ (∀ st : ProxyState, toggleLogging (toggleLogging st false) false = toggleLogging st false)
    ∧ (∀ st : ProxyState, toggleLogging (toggleLogging st true) true = toggleLogging st true)
    ∧ (∀ (host : Host) (st : ProxyState) (m : Method) (args : List Arg) (now : Int),
        st.options.debug = false → st.options.flag m = true →
        (invokeChannel host (toggleProxy (toggleProxy st true) true) m args now).effects
          = [(m, args)]
        ∧ getLogs (invokeChannel host (toggleProxy (toggleProxy st true) true) m args now).state
            = rotateLogs st.options now st.logs
              ++ [{ method := m, source := getSource args, timestamp := now
                    data := args }]) := by
  refine ⟨fun st => rfl, fun st => rfl, ?_, ?_, ?_⟩
  · intro st
    unfold toggleLogging
    cases hen : st.enabled <;> simp [hen]
  · intro st
    unfold toggleLogging
    cases hen : st.enabled <;> simp [hen]
  · intro host st m args now hd hf
    have hw : (toggleProxy (toggleProxy st true) true).console.get m = .wrapped := by
      cases m <;> rfl
    rw [invokeChannel_wrapped_eq host (toggleProxy (toggleProxy st true) true) m args now hd hw]
    refine ⟨rfl, ?_⟩
    show (captureCore (toggleProxy (toggleProxy st true) true) m args now).logs = _
    rw [captureCore_logs]
    have hopts : (toggleProxy (toggleProxy st true) true).options = st.options := rfl
    have hlogs : (toggleProxy (toggleProxy st true) true).logs = st.logs := rfl
    rw [hopts, hlogs, hf]
    rfl

/-- C5 (witness): the double-enable capture/forward equations instantiated
on the fresh C1 controller with payload A. -/
theorem toggle_idempotence_witness :
    (invokeChannel host0 (toggleProxy (toggleProxy c1State0 true) true) .log [.str "A"] 0).effects
      = [(.log, [.str "A"])]
    ∧ getLogs (invokeChannel host0 (toggleProxy (toggleProxy c1State0 true) true)
        .log [.str "A"] 0).state
      = rotateLogs c1State0.options 0 c1State0.logs
        ++ [{ method := .log, source := getSource [.str "A"], timestamp := 0
              data := [.str "A"] }] :=
  toggle_idempotence.2.2.2.2 host0 c1State0 .log [.str "A"] 0 rfl rfl

/-- C6 (confirmed): after `toggle(false)` the "error" channel resolves to
the original implementation, so invoking it appends no entry (the state is
unchanged) and the host's original error implementation is invoked exactly
once with exactly the given arguments. -/
theorem transparency_after_disable (host : Host) (st : ProxyState) (args : List Arg)
    (now : Int) :
    (invokeChannel host (toggleProxy st false) .error args now).state = toggleProxy st false
    ∧ (invokeChannel host (toggleProxy st false) .error args now).effects
        = [(.error, args)] :=
  ⟨rfl, rfl⟩

/-- C7 (confirmed): argument-based attribution — a single string argument
resolves to `"user"`; with several arguments the source is the text before
the first colon of the bracket-stripped third space-delimited token of the
first argument, so `["prefix token [svcName:extra] tail", "x"]` resolves
to `"svcName"`; and a non-string (or absent) first argument yields
`undefined`. -/
theorem argument_attribution :
    (∀ s : String, getSource [Arg.str s] = .str "user")
    ∧ getSource [.str "prefix token [svcName:extra] tail", .str "x"] = .str "svcName"
    ∧ (∀ (n : Int) (rest : List Arg), getSource (Arg.num n :: rest) = .jsUndefined)
    ∧ getSource ([] : List Arg) = .jsUndefined := by
  refine ⟨fun s => rfl, by decide, fun n rest => rfl, rfl⟩

/-- A stack text whose line at index 3 does not match the frame pattern. -/
def c8BadStack : String :=
  "Error\n    at w (f.js:1:1)\n    at cap (f.js:2:2)\ngarbage line"

/-- A fresh enabled ConsoleMethods-style logger with the default options. -/
def c8State : ProxyState :=
  { logs := [], options := defaultOptions, enabled := true, console := allSlots .wrapped }

/-- C8 (counterexample): when the frame-pattern match at stack index 3
fails, `CustomConsoleLogger.#getSource` returns the empty object, not the
claimed sentinel record with fields `"unknown"/"unknown"/"0"`. -/
theorem stack_attribution_counterexample :
    getSourceStack c8BadStack = .emptyObj
    ∧ getSourceStack c8BadStack ≠ .frame "unknown" "unknown" "0" := by
  constructor
  · decide
  · decide

/-- C8 (amended): when the frame-pattern match against the captured stack
text at index 3 fails, the resolver returns the empty object (an absent
source), and the entry is still stored — attribution failure is non-fatal
and the captured record carries the empty-object source. -/
theorem stack_attribution_amended :
    (∀ stack : String,
      parseFrame (String.mk (((jsSplitChar '\n' stack.toList).get? 3).getD
        "undefined".toList)) = none →
      getSourceStack stack = .emptyObj)
    ∧ (∀ (st : ProxyState) (m : Method) (args : List Arg) (now : Int) (stack : String),
        getSourceStack stack = .emptyObj →
        getLogs (methodsCaptureLog st m args now stack)
          = methodsRotateLogs st.options now st.logs
            ++ [{ method := m, source := .emptyObj, timestamp := now, data := args }]) := by
  constructor
  · intro stack h
    simp only [getSourceStack]
    rw [h]
  · intro st m args now stack h
    simp only [methodsCaptureLog, methodsShouldLog, getLogs, if_true]
    rw [h]

/-- C8 (witness for the amended theorem): the failing stack text leaves
the entry stored with the empty-object source. -/
theorem stack_attribution_amended_witness :
    getLogs (methodsCaptureLog c8State .warn [.str "X"] 0 c8BadStack)
      = methodsRotateLogs c8State.options 0 c8State.logs
        ++ [{ method := .warn, source := .emptyObj, timestamp := 0, data := [.str "X"] }] :=
  stack_attribution_amended.2 c8State .warn [.str "X"] 0 c8BadStack (by decide)

/-- A host whose original "log" implementation throws when invoked. -/
def hostLogThrows : Host := fun m =>
  match m with
  | .log => true
  | _ => false

/-- An enabled controller with `debug = true` and all channels wrapped. -/
def c9State : ProxyState :=
  { logs := []
    options := { log := true, info := true, warn := true, error := true
                 maxLogSize := 100, logExpiryDays := 7, debug := true }
    enabled := true, console := allSlots .wrapped }

/-- C9 (counterexample): the wrappers contain no try/catch.  With
`debug = true`, the capture step begins by calling the host's original
"log" implementation; if that call throws, the exception propagates out of
the "warn" wrapper — the original "warn" implementation is never invoked
and nothing is stored, contradicting the claim that a capture-step
exception is caught locally and forwarding still happens. -/
theorem capture_failure_counterexample :
    (invokeChannel hostLogThrows c9State .warn [.str "Y"] 0).threw = true
    ∧ (Method.warn, [Arg.str "Y"])
        ∉ (invokeChannel hostLogThrows c9State .warn [.str "Y"] 0).effects
    ∧ getLogs (invokeChannel hostLogThrows c9State .warn [.str "Y"] 0).state = [] := by
  refine ⟨by decide, by decide, by decide⟩

/-- C9 (amended): there is no local exception handler in the wrappers.
Instead, with `debug = false` the embedded capture step is total (it
cannot throw), so every call to a wrapped channel invokes the original
implementation exactly once with the original arguments, and the only
exception a caller can see is one thrown by the original implementation
itself (ForwardingFailure, propagated unchanged); with `debug = true` a
throw from the host's "log" channel during the debug print propagates and
skips both storage and forwarding. -/
theorem capture_failure_amended :
    (∀ (host : Host) (st : ProxyState) (m : Method) (args : List Arg) (now : Int),
      st.options.debug = false → st.console.get m = .wrapped →
      (invokeChannel host st m args now).effects = [(m, args)]
      ∧ (invokeChannel host st m args now).threw = host m)
    ∧ (invokeChannel hostLogThrows c9State .warn [.str "Y"] 0).effects
        = [(.log, debugCaptureArgs .warn [.str "Y"])] := by
  constructor
  · intro host st m args now hd hw
    rw [invokeChannel_wrapped_eq host st m args now hd hw]
    exact ⟨rfl, rfl⟩
  · decide

/-- C9 (witness for the amended theorem): on the fresh non-debug
controller, a wrapped "log" call forwards exactly once and only throws if
the host does. -/
theorem capture_failure_amended_witness :
    (invokeChannel host0 c1State0 .log [.str "Y"] 0).effects = [(.log, [.str "Y"])]
    ∧ (invokeChannel host0 c1State0 .log [.str "Y"] 0).threw = host0 .log :=
  capture_failure_amended.1 host0 c1State0 .log [.str "Y"] 0 rfl rfl

/-- An entry strictly older than seven days at time 0. -/
def c10OldEntry : LogEntry :=
  { method := .log, source := .str "user", timestamp := -604800001, data := [.str "A0"] }

/-- An enabled controller whose "warn" flag is false and whose store holds
one expired entry. -/
def c10State : ProxyState :=
  { logs := [c10OldEntry], options := c4Options, enabled := true
    console := allSlots .wrapped }

/-- C10 (confirmed): a call to a wrapped channel whose policy flag is
false appends no entry, but `#rotateLogs` still runs before `#shouldLog`
is consulted: the resulting store is exactly the rotation of the old
store, so such a call can evict expired or over-limit entries while
storing nothing itself — and the call is still forwarded. -/
theorem flagfalse_rotation (host : Host) (st : ProxyState) (m : Method) (args : List Arg)
    (now : Int) (hd : st.options.debug = false) (hf : st.options.flag m = false)
    (hw : st.console.get m = .wrapped) :
    getLogs (invokeChannel host st m args now).state = rotateLogs st.options now st.logs
    ∧ (invokeChannel host st m args now).effects = [(m, args)] := by
  rw [invokeChannel_wrapped_eq host st m args now hd hw]
  refine ⟨?_, rfl⟩
  show (captureCore st m args now).logs = _
  rw [captureCore_logs, hf]
  simp

/-- C10 (witness): the flag-false "warn" call on `c10State` stores nothing
yet evicts the expired entry, leaving the store empty. -/
theorem flagfalse_rotation_witness :
    getLogs (invokeChannel host0 c10State .warn [.str "Q"] 0).state
      = rotateLogs c10State.options 0 c10State.logs
    ∧ rotateLogs c10State.options 0 c10State.logs = [] :=
  ⟨(flagfalse_rotation host0 c10State .warn [.str "Q"] 0 rfl rfl rfl).1, by decide⟩

end Devtools
